import Mathlib

/-!
# Triple invoker (protocol/triple/triple_invoker.go)

A shallow embedding of the client-side invocation adapter `TripleInvoker`:
its call-kind dispatch (`Invoke`), its status queries (`IsAvailable`,
`IsDestroyed`), its one-shot teardown (`Destroy`) and its constructor
(`NewTripleInvoker`).

The reader/writer lock only serialises access to the client handle, so in a
sequential model the guarded accessors are plain reads and writes. Calls made
to the transport client and executions of its close routine are recorded in a
ghost log and a ghost counter carried next to the invoker.
-/

namespace Triple

/-! ## Values exchanged with the surrounding framework -/

/-- Go values of type `interface{}`: attribute values and raw parameter values. -/
inductive Any where
  | nil
  | str (s : String)
  | int (n : Int)
  | ref (addr : Nat)
  deriving DecidableEq, Repr

/-- Type assertion `v.(string)`: succeeds only on a string value. -/
def Any.asString : Any → Option String
  | .str s => some s
  | _ => none

/-- Go `error` values: the two sentinel errors of package `protocol` and any other error. -/
inductive Error where
  | ErrDestroyedInvoker
  | ErrClientClosed
  | other (msg : String)
  deriving DecidableEq, Repr

/-- A `context.Context`, passed through to the transport untouched. -/
structure Context where
  id : Nat
  deriving DecidableEq, Repr

/-- A stream handle returned by a streaming primitive (a pointer; address 0 is the nil pointer). -/
structure StreamHandle where
  addr : Nat
  deriving DecidableEq, Repr

/-- One call made to the transport client. -/
inductive TransportCall where
  | callUnary (ctx : Context) (method : String) (req resp : Any)
  | callClientStream (ctx : Context) (method : String)
  | callServerStream (ctx : Context) (method : String) (req : Any)
  | callBidiStream (ctx : Context) (method : String)
  deriving DecidableEq, Repr

/-- Modelled from the spec: the key under which an invocation carries its call kind
(`constant.CallTypeKey`; package `constant` is outside the source tree). -/
def CallTypeKey : String := "call-type"

/-- Modelled from the spec: the call-kind tag `unary` (`constant.CallUnary`). -/
def CallUnary : String := "unary"

/-- Modelled from the spec: the call-kind tag `client-stream` (`constant.CallClientStream`). -/
def CallClientStream : String := "client-stream"

/-- Modelled from the spec: the call-kind tag `server-stream` (`constant.CallServerStream`). -/
def CallServerStream : String := "server-stream"

/-- Modelled from the spec: the call-kind tag `bidi-stream` (`constant.CallBidiStream`). -/
def CallBidiStream : String := "bidi-stream"

/-- The interface `protocol.Invocation`, as the answers of the three methods `Invoke` calls.
`GetAttribute key` is `none` when Go returns `ok = false`. -/
structure Invocation where
  MethodName : String
  GetAttribute : String → Option Any
  ParameterRawValues : List Any

/-- Modelled from the spec: `protocol.RPCResult` (declared outside the source tree), reduced
to its error and its payload; the zero value carries neither. -/
structure RPCResult where
  Err : Option Error := none
  Rest : Option StreamHandle := none
  deriving DecidableEq, Repr

/-- Modelled from the spec: `RPCResult.SetError` stores the error. -/
def RPCResult.SetError (r : RPCResult) (err : Error) : RPCResult :=
  { r with Err := some err }

/-- Modelled from the spec: `RPCResult.SetResult` stores the payload. -/
def RPCResult.SetResult (r : RPCResult) (rest : StreamHandle) : RPCResult :=
  { r with Rest := some rest }

/-- The value a panicking `Invoke` aborts with, one constructor per `panic` site; the last
one is Go's run-time index check on `inRaw[i]`. -/
inductive PanicValue where
  | missCallType
  | callTypeNotString (callTypeRaw : Any)
  | wrongUnaryCount (inRawLen : Nat)
  | wrongServerStreamCount (inRawLen : Nat)
  | unsupportedCallType (callType : String)
  | indexOutOfRange
  deriving DecidableEq, Repr

/-! ## The collaborators -/

/-- Modelled from the spec: the transport client (`clientManager`, implemented outside the
source tree) with its four call primitives. Each primitive sees the calls made so far, so
its answer may change from call to call. A streaming primitive returns Go's pair
`(stream, err)`. -/
structure clientManager where
  callUnary : List TransportCall → Context → String → Any → Any → Option Error
  callClientStream : List TransportCall → Context → String → StreamHandle × Option Error
  callServerStream : List TransportCall → Context → String → Any → StreamHandle × Option Error
  callBidiStream : List TransportCall → Context → String → StreamHandle × Option Error

/-- Modelled from the spec: `protocol.BaseInvoker` (outside the source tree), the
availability and destroyed flags of the generic invoker base. -/
structure BaseInvoker where
  available : Bool
  destroyed : Bool
  deriving DecidableEq, Repr

/-- Modelled from the spec: a new base invoker is alive until explicitly destroyed. -/
def NewBaseInvoker : BaseInvoker :=
  { available := true, destroyed := false }

/-- Modelled from the spec: the base state reports available. -/
def BaseInvoker.IsAvailable (bi : BaseInvoker) : Bool := bi.available

/-- Modelled from the spec: the base state reports destroyed. -/
def BaseInvoker.IsDestroyed (bi : BaseInvoker) : Bool := bi.destroyed

/-- Modelled from the spec: `BaseInvoker.Destroy` marks the base state destroyed and
not available. -/
def BaseInvoker.Destroy (_bi : BaseInvoker) : BaseInvoker :=
  { available := false, destroyed := true }

/-! ## The invoker -/

/-- The struct `TripleInvoker`; `quitOnce` is the done flag of the `sync.Once`. -/
structure TripleInvoker where
  BaseInvoker : BaseInvoker
  quitOnce : Bool
  clientManager : Option clientManager

/-- The invoker together with the ghost record of what reached the transport client. -/
structure World where
  ti : TripleInvoker
  log : List TransportCall
  closeCount : Nat

/-- The guarded setter of the client handle. -/
def TripleInvoker.setClientManager (gni : TripleInvoker) (cm : Option Triple.clientManager) :
    TripleInvoker :=
  { gni with clientManager := cm }

/-- The guarded getter of the client handle. -/
def TripleInvoker.getClientManager (gni : TripleInvoker) : Option Triple.clientManager :=
  gni.clientManager

/-- The method `Invoke`: the outcome (a panic or a returned result) and the world after it. -/
def TripleInvoker.Invoke (w : World) (ctx : Context) (invocation : Invocation) :
    Except PanicValue RPCResult × World :=
  let result : RPCResult := {}
  if !w.ti.BaseInvoker.IsAvailable then
    (.ok { result with Err := some Error.ErrDestroyedInvoker }, w)
  else
  match w.ti.clientManager with
  | none => (.ok { result with Err := some Error.ErrClientClosed }, w)
  | some cm =>
  match invocation.GetAttribute CallTypeKey with
  | none => (.error PanicValue.missCallType, w)
  | some callTypeRaw =>
  match callTypeRaw.asString with
  | none => (.error (PanicValue.callTypeNotString callTypeRaw), w)
  | some callType =>
  let inRaw := invocation.ParameterRawValues
  let inRawLen := inRaw.length
  let method := invocation.MethodName
  if callType = CallUnary then
    if inRaw.length ≠ 2 then (.error (PanicValue.wrongUnaryCount inRawLen), w)
    else
      match inRaw[0]?, inRaw[1]? with
      | some in0, some in1 =>
        let w1 := { w with log := w.log ++ [TransportCall.callUnary ctx method in0 in1] }
        match cm.callUnary w.log ctx method in0 in1 with
        | some err => (.ok (result.SetError err), w1)
        | none => (.ok result, w1)
      | _, _ => (.error PanicValue.indexOutOfRange, w)
  else if callType = CallClientStream then
    let w1 := { w with log := w.log ++ [TransportCall.callClientStream ctx method] }
    match cm.callClientStream w.log ctx method with
    | (_, some err) => (.ok (result.SetError err), w1)
    | (stream, none) => (.ok (result.SetResult stream), w1)
  else if callType = CallServerStream then
    if inRawLen ≠ 1 then (.error (PanicValue.wrongServerStreamCount inRawLen), w)
    else
      match inRaw[0]? with
      | some in0 =>
        let w1 := { w with log := w.log ++ [TransportCall.callServerStream ctx method in0] }
        match cm.callServerStream w.log ctx method in0 with
        | (_, some err) => (.ok { result with Err := some err }, w1)
        | (stream, none) => (.ok (result.SetResult stream), w1)
      | none => (.error PanicValue.indexOutOfRange, w)
  else if callType = CallBidiStream then
    let w1 := { w with log := w.log ++ [TransportCall.callBidiStream ctx method] }
    match cm.callBidiStream w.log ctx method with
    | (_, some err) => (.ok { result with Err := some err }, w1)
    | (stream, none) => (.ok (result.SetResult stream), w1)
  else (.error (PanicValue.unsupportedCallType callType), w)

/-- The method `IsAvailable`. -/
def TripleInvoker.IsAvailable (gni : TripleInvoker) : Bool :=
  match gni.getClientManager with
  | some _ => gni.BaseInvoker.IsAvailable
  | none => false

/-- The method `IsDestroyed`. -/
def TripleInvoker.IsDestroyed (gni : TripleInvoker) : Bool :=
  match gni.getClientManager with
  | some _ => gni.BaseInvoker.IsDestroyed
  | none => false

/-- The method `Destroy`: the body runs only while the once-flag is unset; it destroys the
base state and, when the handle is non-null, nulls it and closes the client. -/
def TripleInvoker.Destroy (w : World) : World :=
  if w.ti.quitOnce then w
  else
    let ti1 : TripleInvoker :=
      { w.ti with quitOnce := true, BaseInvoker := w.ti.BaseInvoker.Destroy }
    match ti1.getClientManager with
    | some _ =>
      { ti := ti1.setClientManager none, log := w.log, closeCount := w.closeCount + 1 }
    | none => { w with ti := ti1 }

/-- The constructor `NewTripleInvoker`, given what `newClientManager(url)` returned. -/
def NewTripleInvoker (newClientManager : Except Error clientManager) :
    Except Error TripleInvoker :=
  match newClientManager with
  | .error err => .error err
  | .ok cm =>
    .ok { BaseInvoker := NewBaseInvoker, quitOnce := false, clientManager := some cm }

/-- The world right after a successful construction: nothing called, nothing closed. -/
def World.fresh (ti : TripleInvoker) : World :=
  { ti := ti, log := [], closeCount := 0 }

/-! ## Call sequences -/

/-- One call on the invoker's public surface. -/
inductive Op where
  | invoke (ctx : Context) (invocation : Invocation)
  | isAvailable
  | isDestroyed
  | destroy

/-- The world after one call; a panicking `Invoke` is recovered by its caller. -/
def step (w : World) : Op → World
  | .invoke ctx invocation => (TripleInvoker.Invoke w ctx invocation).2
  | .isAvailable => w
  | .isDestroyed => w
  | .destroy => TripleInvoker.Destroy w

/-- The world after a sequence of calls, first call first. -/
def run (w : World) (ops : List Op) : World :=
  ops.foldl step w

/-! ## Sample collaborators and invocations -/

/-- A transport client whose primitives all succeed. -/
def okClient : clientManager :=
  { callUnary := fun _ _ _ _ _ => none
    callClientStream := fun _ _ _ => (StreamHandle.mk 11, none)
    callServerStream := fun _ _ _ _ => (StreamHandle.mk 12, none)
    callBidiStream := fun _ _ _ => (StreamHandle.mk 13, none) }

/-- A transport client whose client-stream and server-stream primitives succeed, while its
unary and bidi-stream primitives fail with a transport error. -/
def failClient : clientManager :=
  { callUnary := fun _ _ _ _ _ => some (Error.other "unavailable")
    callClientStream := fun _ _ _ => (StreamHandle.mk 21, none)
    callServerStream := fun _ _ _ _ => (StreamHandle.mk 22, none)
    callBidiStream := fun _ _ _ => (StreamHandle.mk 0, some (Error.other "reset")) }

/-- The invoker built by `NewTripleInvoker` around `failClient`. -/
def failInvoker : TripleInvoker :=
  { BaseInvoker := NewBaseInvoker, quitOnce := false, clientManager := some failClient }

/-- An invoker whose base state is available although its handle is null. -/
def closedInvoker : TripleInvoker :=
  { BaseInvoker := NewBaseInvoker, quitOnce := false, clientManager := none }

/-- The invoker built by `NewTripleInvoker` around `okClient`. -/
def okInvoker : TripleInvoker :=
  { BaseInvoker := NewBaseInvoker, quitOnce := false, clientManager := some okClient }

/-- An invocation of method `Echo` with the given call-kind attribute and parameters. -/
def mkInvocation (callType : Option Any) (params : List Any) : Invocation :=
  { MethodName := "Echo"
    GetAttribute := fun key => if key = CallTypeKey then callType else none
    ParameterRawValues := params }

/-! ## Basic facts about `Invoke` -/

theorem Invoke_unavailable (w : World) (ctx : Context) (invocation : Invocation)
    (hav : w.ti.BaseInvoker.IsAvailable = false) :
    TripleInvoker.Invoke w ctx invocation
      = (.ok { Err := some Error.ErrDestroyedInvoker, Rest := none }, w) := by
  simp [TripleInvoker.Invoke, hav]

theorem Invoke_closed (w : World) (ctx : Context) (invocation : Invocation)
    (hav : w.ti.BaseInvoker.IsAvailable = true) (hcm : w.ti.clientManager = none) :
    TripleInvoker.Invoke w ctx invocation
      = (.ok { Err := some Error.ErrClientClosed, Rest := none }, w) := by
  simp [TripleInvoker.Invoke, hav, hcm]

theorem Invoke_keeps_invoker (w : World) (ctx : Context) (invocation : Invocation) :
    (TripleInvoker.Invoke w ctx invocation).2.ti = w.ti ∧
      (TripleInvoker.Invoke w ctx invocation).2.closeCount = w.closeCount := by
  unfold TripleInvoker.Invoke
  constructor <;> (repeat' split) <;> simp <;> (repeat' split) <;> simp

/-! ## Basic facts about `Destroy` and call sequences -/

theorem Destroy_unavailable (w : World)
    (hinv : w.ti.quitOnce = true → w.ti.BaseInvoker.IsAvailable = false) :
    (TripleInvoker.Destroy w).ti.BaseInvoker.IsAvailable = false ∧
      (TripleInvoker.Destroy w).ti.quitOnce = true := by
  unfold TripleInvoker.Destroy
  by_cases hq : w.ti.quitOnce = true
  · simp [hq, hinv hq]
  · simp only [hq]
    cases hcm : w.ti.clientManager <;>
      simp [TripleInvoker.getClientManager, TripleInvoker.setClientManager, hcm,
        BaseInvoker.Destroy, BaseInvoker.IsAvailable]

theorem step_keeps_unavailable (w : World) (op : Op)
    (hav : w.ti.BaseInvoker.IsAvailable = false) (hq : w.ti.quitOnce = true) :
    (step w op).ti.BaseInvoker.IsAvailable = false ∧ (step w op).ti.quitOnce = true := by
  cases op with
  | invoke ctx invocation =>
    simp only [step, (Invoke_keeps_invoker w ctx invocation).1]
    exact ⟨hav, hq⟩
  | isAvailable => exact ⟨hav, hq⟩
  | isDestroyed => exact ⟨hav, hq⟩
  | destroy => simp [step, TripleInvoker.Destroy, hq, hav]

theorem step_keeps_once_inv (w : World) (op : Op)
    (hinv : w.ti.quitOnce = true → w.ti.BaseInvoker.IsAvailable = false) :
    (step w op).ti.quitOnce = true → (step w op).ti.BaseInvoker.IsAvailable = false := by
  cases op with
  | invoke ctx invocation =>
    simp only [step, (Invoke_keeps_invoker w ctx invocation).1]
    exact hinv
  | isAvailable => exact hinv
  | isDestroyed => exact hinv
  | destroy => intro _; exact (Destroy_unavailable w hinv).1

theorem run_keeps_once_inv (ops : List Op) (w : World)
    (hinv : w.ti.quitOnce = true → w.ti.BaseInvoker.IsAvailable = false) :
    (run w ops).ti.quitOnce = true → (run w ops).ti.BaseInvoker.IsAvailable = false := by
  induction ops generalizing w with
  | nil => exact hinv
  | cons op rest ih => exact ih (step w op) (step_keeps_once_inv w op hinv)

theorem run_keeps_unavailable (ops : List Op) (w : World)
    (hav : w.ti.BaseInvoker.IsAvailable = false) (hq : w.ti.quitOnce = true) :
    (run w ops).ti.BaseInvoker.IsAvailable = false ∧ (run w ops).ti.quitOnce = true := by
  induction ops generalizing w with
  | nil => exact ⟨hav, hq⟩
  | cons op rest ih =>
    have h := step_keeps_unavailable w op hav hq
    exact ih (step w op) h.1 h.2

theorem run_append (w : World) (xs ys : List Op) : run w (xs ++ ys) = run (run w xs) ys := by
  simp [run, List.foldl_append]

theorem run_cons (w : World) (op : Op) (ops : List Op) : run w (op :: ops) = run (step w op) ops :=
  rfl

theorem run_unavailable_of_destroy (ops : List Op) (w : World)
    (hinv : w.ti.quitOnce = true → w.ti.BaseInvoker.IsAvailable = false)
    (hd : Op.destroy ∈ ops) :
    (run w ops).ti.BaseInvoker.IsAvailable = false ∧ (run w ops).ti.quitOnce = true := by
  obtain ⟨pre, post, rfl⟩ := List.append_of_mem hd
  rw [run_append, run_cons]
  have h := Destroy_unavailable (run w pre) (run_keeps_once_inv pre w hinv)
  exact run_keeps_unavailable post _ h.1 h.2

theorem fresh_of_new (r : Except Error clientManager) (ti : TripleInvoker)
    (hnew : NewTripleInvoker r = .ok ti) :
    ∃ cm, ti = { BaseInvoker := NewBaseInvoker, quitOnce := false, clientManager := some cm } := by
  cases r with
  | error e => simp [NewTripleInvoker] at hnew
  | ok cm =>
    refine ⟨cm, ?_⟩
    simp only [NewTripleInvoker, Except.ok.injEq] at hnew
    exact hnew.symm

/-! ## Claims about `Invoke` -/

/-- C1: in every state reached from a successfully constructed invoker by a sequence of
calls that contains a `Destroy`, `Invoke` on any invocation returns normally a result whose
error is `ErrDestroyedInvoker` or `ErrClientClosed`, with no payload, and adds no call to
the transport log. -/
theorem invoke_after_destroy (r : Except Error clientManager) (ti : TripleInvoker)
    (hnew : NewTripleInvoker r = .ok ti) (ops : List Op) (hd : Op.destroy ∈ ops)
    (ctx : Context) (invocation : Invocation) :
    ∃ res : RPCResult,
      (TripleInvoker.Invoke (run (World.fresh ti) ops) ctx invocation).1 = .ok res ∧
      (res.Err = some Error.ErrDestroyedInvoker ∨ res.Err = some Error.ErrClientClosed) ∧
      res.Rest = none ∧
      (TripleInvoker.Invoke (run (World.fresh ti) ops) ctx invocation).2.log
        = (run (World.fresh ti) ops).log := by
  obtain ⟨cm, rfl⟩ := fresh_of_new r ti hnew
  have h := run_unavailable_of_destroy ops
    (World.fresh { BaseInvoker := NewBaseInvoker, quitOnce := false, clientManager := some cm })
    (by simp [World.fresh]) hd
  rw [Invoke_unavailable _ ctx invocation h.1]
  exact ⟨_, rfl, Or.inl rfl, rfl, rfl⟩

theorem invoke_after_destroy_witness :
    NewTripleInvoker (.ok okClient) = .ok okInvoker ∧
    Op.destroy ∈ [Op.invoke (Context.mk 0) (mkInvocation none []), Op.destroy] ∧
    ∃ res : RPCResult,
      (TripleInvoker.Invoke
          (run (World.fresh okInvoker)
            [Op.invoke (Context.mk 0) (mkInvocation none []), Op.destroy])
          (Context.mk 1) (mkInvocation (some (Any.int 3)) [Any.nil])).1 = .ok res ∧
      (res.Err = some Error.ErrDestroyedInvoker ∨ res.Err = some Error.ErrClientClosed) ∧
      res.Rest = none ∧
      (TripleInvoker.Invoke
          (run (World.fresh okInvoker)
            [Op.invoke (Context.mk 0) (mkInvocation none []), Op.destroy])
          (Context.mk 1) (mkInvocation (some (Any.int 3)) [Any.nil])).2.log
        = (run (World.fresh okInvoker)
            [Op.invoke (Context.mk 0) (mkInvocation none []), Op.destroy]).log :=
  ⟨rfl, by simp,
    invoke_after_destroy (.ok okClient) okInvoker rfl
      [Op.invoke (Context.mk 0) (mkInvocation none []), Op.destroy] (by simp)
      (Context.mk 1) (mkInvocation (some (Any.int 3)) [Any.nil])⟩

/-- C2: on an available invoker with a non-null handle, a `CallUnary` invocation with
exactly the two raw values `[req, resp]` makes exactly one transport call, `callUnary` with
the method name, `req` and `resp` in that order; a nil answer gives a result with no error
and no payload, an error answer gives a result carrying exactly that error and no payload. -/
theorem invoke_unary (w : World) (cm : clientManager) (ctx : Context)
    (invocation : Invocation) (req resp : Any)
    (hav : w.ti.BaseInvoker.IsAvailable = true) (hcm : w.ti.clientManager = some cm)
    (hkind : invocation.GetAttribute CallTypeKey = some (Any.str CallUnary))
    (hpar : invocation.ParameterRawValues = [req, resp]) :
    (TripleInvoker.Invoke w ctx invocation).2
        = { w with log := w.log ++ [TransportCall.callUnary ctx invocation.MethodName req resp] } ∧
      (cm.callUnary w.log ctx invocation.MethodName req resp = none →
        (TripleInvoker.Invoke w ctx invocation).1 = .ok { Err := none, Rest := none }) ∧
      (∀ e, cm.callUnary w.log ctx invocation.MethodName req resp = some e →
        (TripleInvoker.Invoke w ctx invocation).1 = .ok { Err := some e, Rest := none }) := by
  unfold TripleInvoker.Invoke
  simp only [hav, hcm, hkind, hpar, Any.asString]
  cases hans : cm.callUnary w.log ctx invocation.MethodName req resp <;>
    simp [hans, RPCResult.SetError]

theorem invoke_unary_witness :
    (World.fresh okInvoker).ti.BaseInvoker.IsAvailable = true ∧
    (World.fresh okInvoker).ti.clientManager = some okClient ∧
    (TripleInvoker.Invoke (World.fresh okInvoker) (Context.mk 0)
        (mkInvocation (some (Any.str CallUnary)) [Any.int 1, Any.ref 2])).2.log
      = [TransportCall.callUnary (Context.mk 0) "Echo" (Any.int 1) (Any.ref 2)] ∧
    (TripleInvoker.Invoke (World.fresh okInvoker) (Context.mk 0)
        (mkInvocation (some (Any.str CallUnary)) [Any.int 1, Any.ref 2])).1
      = .ok { Err := none, Rest := none } :=
  have h := invoke_unary (World.fresh okInvoker) okClient (Context.mk 0)
    (mkInvocation (some (Any.str CallUnary)) [Any.int 1, Any.ref 2]) (Any.int 1) (Any.ref 2)
    rfl rfl rfl rfl
  ⟨rfl, rfl, by rw [h.1]; rfl, h.2.1 rfl⟩

/-- C10: on an invoker whose base state reports available but whose handle is null,
`Invoke` on any invocation returns normally a result carrying `ErrClientClosed` and no
payload, and leaves the world (transport log included) untouched. -/
theorem invoke_null_handle (w : World) (ctx : Context) (invocation : Invocation)
    (hav : w.ti.BaseInvoker.IsAvailable = true) (hcm : w.ti.clientManager = none) :
    (TripleInvoker.Invoke w ctx invocation).1
        = .ok { Err := some Error.ErrClientClosed, Rest := none } ∧
      (TripleInvoker.Invoke w ctx invocation).2 = w := by
  rw [Invoke_closed w ctx invocation hav hcm]
  exact ⟨rfl, rfl⟩

theorem invoke_null_handle_witness :
    (World.fresh closedInvoker).ti.BaseInvoker.IsAvailable = true ∧
    (TripleInvoker.Invoke (World.fresh closedInvoker) (Context.mk 0)
        (mkInvocation none [Any.nil])).1
      = .ok { Err := some Error.ErrClientClosed, Rest := none } ∧
    (TripleInvoker.Invoke (World.fresh closedInvoker) (Context.mk 0)
        (mkInvocation none [Any.nil])).2.log = [] :=
  have h := invoke_null_handle (World.fresh closedInvoker) (Context.mk 0)
    (mkInvocation none [Any.nil]) rfl rfl
  ⟨rfl, h.1, by rw [h.2]; rfl⟩

theorem Invoke_client_stream (w : World) (cm : clientManager) (ctx : Context)
    (invocation : Invocation)
    (hav : w.ti.BaseInvoker.IsAvailable = true) (hcm : w.ti.clientManager = some cm)
    (hkind : invocation.GetAttribute CallTypeKey = some (Any.str CallClientStream)) :
    TripleInvoker.Invoke w ctx invocation
      = (match cm.callClientStream w.log ctx invocation.MethodName with
          | (_, some e) => .ok { Err := some e, Rest := none }
          | (stream, none) => .ok { Err := none, Rest := some stream },
         { w with log := w.log ++ [TransportCall.callClientStream ctx invocation.MethodName] }) := by
  unfold TripleInvoker.Invoke
  simp only [hav, hcm, hkind, Any.asString]
  rcases hans : cm.callClientStream w.log ctx invocation.MethodName with ⟨stream, _ | e⟩ <;>
    simp [CallClientStream, CallUnary, RPCResult.SetError, RPCResult.SetResult]

theorem Invoke_bidi_stream (w : World) (cm : clientManager) (ctx : Context)
    (invocation : Invocation)
    (hav : w.ti.BaseInvoker.IsAvailable = true) (hcm : w.ti.clientManager = some cm)
    (hkind : invocation.GetAttribute CallTypeKey = some (Any.str CallBidiStream)) :
    TripleInvoker.Invoke w ctx invocation
      = (match cm.callBidiStream w.log ctx invocation.MethodName with
          | (_, some e) => .ok { Err := some e, Rest := none }
          | (stream, none) => .ok { Err := none, Rest := some stream },
         { w with log := w.log ++ [TransportCall.callBidiStream ctx invocation.MethodName] }) := by
  unfold TripleInvoker.Invoke
  simp only [hav, hcm, hkind, Any.asString]
  rcases hans : cm.callBidiStream w.log ctx invocation.MethodName with ⟨stream, _ | e⟩ <;>
    simp [CallBidiStream, CallServerStream, CallClientStream, CallUnary, RPCResult.SetResult]

theorem Invoke_server_stream (w : World) (cm : clientManager) (ctx : Context)
    (invocation : Invocation) (req : Any)
    (hav : w.ti.BaseInvoker.IsAvailable = true) (hcm : w.ti.clientManager = some cm)
    (hkind : invocation.GetAttribute CallTypeKey = some (Any.str CallServerStream))
    (hpar : invocation.ParameterRawValues = [req]) :
    TripleInvoker.Invoke w ctx invocation
      = (match cm.callServerStream w.log ctx invocation.MethodName req with
          | (_, some e) => .ok { Err := some e, Rest := none }
          | (stream, none) => .ok { Err := none, Rest := some stream },
         { w with log := w.log ++ [TransportCall.callServerStream ctx invocation.MethodName req] }) := by
  unfold TripleInvoker.Invoke
  simp only [hav, hcm, hkind, hpar, Any.asString]
  rcases hans : cm.callServerStream w.log ctx invocation.MethodName req with ⟨stream, _ | e⟩ <;>
    simp [CallServerStream, CallClientStream, CallUnary, RPCResult.SetResult, hans]

/-- C3: on an available invoker with a non-null handle, a `CallClientStream` or
`CallBidiStream` invocation with no raw values, or a `CallServerStream` invocation with the
single raw value `req`, makes exactly one transport call, the matching primitive, with only
the method name (client/bidi) or the method name and `req` (server); an answer
`(stream, nil)` gives a result whose payload is that stream and whose error is nil, an
answer with error `e` gives a result carrying exactly `e` and no payload. -/
theorem invoke_stream (w : World) (cm : clientManager) (ctx : Context)
    (invocation : Invocation)
    (hav : w.ti.BaseInvoker.IsAvailable = true) (hcm : w.ti.clientManager = some cm) :
    (invocation.GetAttribute CallTypeKey = some (Any.str CallClientStream) →
      invocation.ParameterRawValues = [] →
      (TripleInvoker.Invoke w ctx invocation).2
          = { w with log := w.log ++ [TransportCall.callClientStream ctx invocation.MethodName] } ∧
        (∀ stream, cm.callClientStream w.log ctx invocation.MethodName = (stream, none) →
          (TripleInvoker.Invoke w ctx invocation).1 = .ok { Err := none, Rest := some stream }) ∧
        (∀ stream e, cm.callClientStream w.log ctx invocation.MethodName = (stream, some e) →
          (TripleInvoker.Invoke w ctx invocation).1 = .ok { Err := some e, Rest := none })) ∧
    (invocation.GetAttribute CallTypeKey = some (Any.str CallBidiStream) →
      invocation.ParameterRawValues = [] →
      (TripleInvoker.Invoke w ctx invocation).2
          = { w with log := w.log ++ [TransportCall.callBidiStream ctx invocation.MethodName] } ∧
        (∀ stream, cm.callBidiStream w.log ctx invocation.MethodName = (stream, none) →
          (TripleInvoker.Invoke w ctx invocation).1 = .ok { Err := none, Rest := some stream }) ∧
        (∀ stream e, cm.callBidiStream w.log ctx invocation.MethodName = (stream, some e) →
          (TripleInvoker.Invoke w ctx invocation).1 = .ok { Err := some e, Rest := none })) ∧
    (∀ req, invocation.GetAttribute CallTypeKey = some (Any.str CallServerStream) →
      invocation.ParameterRawValues = [req] →
      (TripleInvoker.Invoke w ctx invocation).2
          = { w with
              log := w.log ++ [TransportCall.callServerStream ctx invocation.MethodName req] } ∧
        (∀ stream, cm.callServerStream w.log ctx invocation.MethodName req = (stream, none) →
          (TripleInvoker.Invoke w ctx invocation).1 = .ok { Err := none, Rest := some stream }) ∧
        (∀ stream e, cm.callServerStream w.log ctx invocation.MethodName req = (stream, some e) →
          (TripleInvoker.Invoke w ctx invocation).1 = .ok { Err := some e, Rest := none })) := by
  refine ⟨fun hkind _ => ?_, fun hkind _ => ?_, fun req hkind hpar => ?_⟩
  · rw [Invoke_client_stream w cm ctx invocation hav hcm hkind]
    exact ⟨rfl, fun stream h => by simp [h], fun stream e h => by simp [h]⟩
  · rw [Invoke_bidi_stream w cm ctx invocation hav hcm hkind]
    exact ⟨rfl, fun stream h => by simp [h], fun stream e h => by simp [h]⟩
  · rw [Invoke_server_stream w cm ctx invocation req hav hcm hkind hpar]
    exact ⟨rfl, fun stream h => by simp [h], fun stream e h => by simp [h]⟩

theorem invoke_stream_witness :
    (World.fresh failInvoker).ti.BaseInvoker.IsAvailable = true ∧
    (World.fresh failInvoker).ti.clientManager = some failClient ∧
    ((TripleInvoker.Invoke (World.fresh failInvoker) (Context.mk 0)
        (mkInvocation (some (Any.str CallClientStream)) [])).2.log
      = [TransportCall.callClientStream (Context.mk 0) "Echo"] ∧
     (TripleInvoker.Invoke (World.fresh failInvoker) (Context.mk 0)
        (mkInvocation (some (Any.str CallClientStream)) [])).1
      = .ok { Err := none, Rest := some (StreamHandle.mk 21) }) ∧
    ((TripleInvoker.Invoke (World.fresh failInvoker) (Context.mk 0)
        (mkInvocation (some (Any.str CallBidiStream)) [])).2.log
      = [TransportCall.callBidiStream (Context.mk 0) "Echo"] ∧
     (TripleInvoker.Invoke (World.fresh failInvoker) (Context.mk 0)
        (mkInvocation (some (Any.str CallBidiStream)) [])).1
      = .ok { Err := some (Error.other "reset"), Rest := none }) ∧
    ((TripleInvoker.Invoke (World.fresh failInvoker) (Context.mk 0)
        (mkInvocation (some (Any.str CallServerStream)) [Any.int 5])).2.log
      = [TransportCall.callServerStream (Context.mk 0) "Echo" (Any.int 5)] ∧
     (TripleInvoker.Invoke (World.fresh failInvoker) (Context.mk 0)
        (mkInvocation (some (Any.str CallServerStream)) [Any.int 5])).1
      = .ok { Err := none, Rest := some (StreamHandle.mk 22) }) :=
  have hc := (invoke_stream (World.fresh failInvoker) failClient (Context.mk 0)
    (mkInvocation (some (Any.str CallClientStream)) []) rfl rfl).1 rfl rfl
  have hb := (invoke_stream (World.fresh failInvoker) failClient (Context.mk 0)
    (mkInvocation (some (Any.str CallBidiStream)) []) rfl rfl).2.1 rfl rfl
  have hs := (invoke_stream (World.fresh failInvoker) failClient (Context.mk 0)
    (mkInvocation (some (Any.str CallServerStream)) [Any.int 5]) rfl rfl).2.2 (Any.int 5) rfl rfl
  ⟨rfl, rfl,
    ⟨by rw [hc.1]; rfl, hc.2.1 (StreamHandle.mk 21) rfl⟩,
    ⟨by rw [hb.1]; rfl, hb.2.2 (StreamHandle.mk 0) (Error.other "reset") rfl⟩,
    ⟨by rw [hs.1]; rfl, hs.2.1 (StreamHandle.mk 22) rfl⟩⟩

/-- C4: on an available invoker with a non-null handle, a `CallServerStream` invocation
whose number of raw values is not 1, or a `CallUnary` invocation whose number of raw values
is not 2, makes `Invoke` panic instead of returning a result, and no transport primitive is
called (the world is left as it was). -/
theorem invoke_wrong_count_panics (w : World) (cm : clientManager) (ctx : Context)
    (invocation : Invocation)
    (hav : w.ti.BaseInvoker.IsAvailable = true) (hcm : w.ti.clientManager = some cm)
    (hbad : (invocation.GetAttribute CallTypeKey = some (Any.str CallServerStream) ∧
              invocation.ParameterRawValues.length ≠ 1) ∨
            (invocation.GetAttribute CallTypeKey = some (Any.str CallUnary) ∧
              invocation.ParameterRawValues.length ≠ 2)) :
    (∃ p, (TripleInvoker.Invoke w ctx invocation).1 = .error p) ∧
      (TripleInvoker.Invoke w ctx invocation).2 = w := by
  unfold TripleInvoker.Invoke
  rcases hbad with ⟨hkind, hlen⟩ | ⟨hkind, hlen⟩
  · simp [hav, hcm, hkind, hlen, Any.asString, CallServerStream, CallClientStream, CallUnary]
  · simp [hav, hcm, hkind, hlen, Any.asString]

theorem invoke_wrong_count_panics_witness :
    ((∃ p, (TripleInvoker.Invoke (World.fresh okInvoker) (Context.mk 0)
        (mkInvocation (some (Any.str CallServerStream)) [])).1 = .error p) ∧
      (TripleInvoker.Invoke (World.fresh okInvoker) (Context.mk 0)
        (mkInvocation (some (Any.str CallServerStream)) [])).2.log = []) ∧
    ((∃ p, (TripleInvoker.Invoke (World.fresh okInvoker) (Context.mk 0)
        (mkInvocation (some (Any.str CallServerStream)) [Any.int 1, Any.int 2])).1 = .error p) ∧
      (TripleInvoker.Invoke (World.fresh okInvoker) (Context.mk 0)
        (mkInvocation (some (Any.str CallServerStream)) [Any.int 1, Any.int 2])).2.log = []) ∧
    ((∃ p, (TripleInvoker.Invoke (World.fresh okInvoker) (Context.mk 0)
        (mkInvocation (some (Any.str CallUnary)) [Any.int 1])).1 = .error p) ∧
      (TripleInvoker.Invoke (World.fresh okInvoker) (Context.mk 0)
        (mkInvocation (some (Any.str CallUnary)) [Any.int 1])).2.log = []) :=
  have h0 := invoke_wrong_count_panics (World.fresh okInvoker) okClient (Context.mk 0)
    (mkInvocation (some (Any.str CallServerStream)) []) rfl rfl (Or.inl ⟨rfl, by decide⟩)
  have h2 := invoke_wrong_count_panics (World.fresh okInvoker) okClient (Context.mk 0)
    (mkInvocation (some (Any.str CallServerStream)) [Any.int 1, Any.int 2]) rfl rfl
    (Or.inl ⟨rfl, by decide⟩)
  have h1 := invoke_wrong_count_panics (World.fresh okInvoker) okClient (Context.mk 0)
    (mkInvocation (some (Any.str CallUnary)) [Any.int 1]) rfl rfl (Or.inr ⟨rfl, by decide⟩)
  ⟨⟨h0.1, by rw [h0.2]; rfl⟩, ⟨h2.1, by rw [h2.2]; rfl⟩, ⟨h1.1, by rw [h1.2]; rfl⟩⟩

/-- C5 (as stated, refuted): a `CallClientStream` and a `CallBidiStream` invocation that
each carry one raw value, on an available invoker with a non-null handle, do not panic:
`Invoke` returns the stream the primitive opened and the primitive has been called. -/
theorem stream_params_not_checked :
    (World.fresh okInvoker).ti.BaseInvoker.IsAvailable = true ∧
    (World.fresh okInvoker).ti.clientManager = some okClient ∧
    (mkInvocation (some (Any.str CallClientStream)) [Any.int 1]).ParameterRawValues ≠ [] ∧
    (¬ ∃ p, (TripleInvoker.Invoke (World.fresh okInvoker) (Context.mk 0)
        (mkInvocation (some (Any.str CallClientStream)) [Any.int 1])).1 = .error p) ∧
    (TripleInvoker.Invoke (World.fresh okInvoker) (Context.mk 0)
        (mkInvocation (some (Any.str CallClientStream)) [Any.int 1])).1
      = .ok { Err := none, Rest := some (StreamHandle.mk 11) } ∧
    (TripleInvoker.Invoke (World.fresh okInvoker) (Context.mk 0)
        (mkInvocation (some (Any.str CallClientStream)) [Any.int 1])).2.log
      = [TransportCall.callClientStream (Context.mk 0) "Echo"] ∧
    (¬ ∃ p, (TripleInvoker.Invoke (World.fresh okInvoker) (Context.mk 0)
        (mkInvocation (some (Any.str CallBidiStream)) [Any.int 1])).1 = .error p) ∧
    (TripleInvoker.Invoke (World.fresh okInvoker) (Context.mk 0)
        (mkInvocation (some (Any.str CallBidiStream)) [Any.int 1])).1
      = .ok { Err := none, Rest := some (StreamHandle.mk 13) } ∧
    (TripleInvoker.Invoke (World.fresh okInvoker) (Context.mk 0)
        (mkInvocation (some (Any.str CallBidiStream)) [Any.int 1])).2.log
      = [TransportCall.callBidiStream (Context.mk 0) "Echo"] := by
  refine ⟨rfl, rfl, by simp [mkInvocation], ?_, rfl, rfl, ?_, rfl, rfl⟩
  · rintro ⟨p, hp⟩
    have h : (TripleInvoker.Invoke (World.fresh okInvoker) (Context.mk 0)
        (mkInvocation (some (Any.str CallClientStream)) [Any.int 1])).1
          = .ok { Err := none, Rest := some (StreamHandle.mk 11) } := rfl
    rw [h] at hp
    cases hp
  · rintro ⟨p, hp⟩
    have h : (TripleInvoker.Invoke (World.fresh okInvoker) (Context.mk 0)
        (mkInvocation (some (Any.str CallBidiStream)) [Any.int 1])).1
          = .ok { Err := none, Rest := some (StreamHandle.mk 13) } := rfl
    rw [h] at hp
    cases hp

/-- C5 (amended): on an available invoker with a non-null handle, a `CallClientStream` or
`CallBidiStream` invocation is not checked for its number of raw values and its raw values
are ignored. Whatever the parameter list, `Invoke` makes exactly one transport call, the
matching primitive with only the method name, and returns normally: an answer
`(stream, nil)` gives a result whose payload is that stream and whose error is nil, an
answer with error `e` gives a result carrying exactly `e` and no payload. Hence any other
invocation with the same method name and the same call kind, whatever its parameter list,
has the same outcome and leaves the same world. -/
theorem invoke_stream_ignores_params (w : World) (cm : clientManager) (ctx : Context)
    (invocation : Invocation)
    (hav : w.ti.BaseInvoker.IsAvailable = true) (hcm : w.ti.clientManager = some cm) :
    (invocation.GetAttribute CallTypeKey = some (Any.str CallClientStream) →
      (TripleInvoker.Invoke w ctx invocation).2
          = { w with log := w.log ++ [TransportCall.callClientStream ctx invocation.MethodName] } ∧
        (∀ stream, cm.callClientStream w.log ctx invocation.MethodName = (stream, none) →
          (TripleInvoker.Invoke w ctx invocation).1 = .ok { Err := none, Rest := some stream }) ∧
        (∀ stream e, cm.callClientStream w.log ctx invocation.MethodName = (stream, some e) →
          (TripleInvoker.Invoke w ctx invocation).1 = .ok { Err := some e, Rest := none }) ∧
        (∀ other : Invocation, other.MethodName = invocation.MethodName →
          other.GetAttribute CallTypeKey = some (Any.str CallClientStream) →
          TripleInvoker.Invoke w ctx other = TripleInvoker.Invoke w ctx invocation)) ∧
    (invocation.GetAttribute CallTypeKey = some (Any.str CallBidiStream) →
      (TripleInvoker.Invoke w ctx invocation).2
          = { w with log := w.log ++ [TransportCall.callBidiStream ctx invocation.MethodName] } ∧
        (∀ stream, cm.callBidiStream w.log ctx invocation.MethodName = (stream, none) →
          (TripleInvoker.Invoke w ctx invocation).1 = .ok { Err := none, Rest := some stream }) ∧
        (∀ stream e, cm.callBidiStream w.log ctx invocation.MethodName = (stream, some e) →
          (TripleInvoker.Invoke w ctx invocation).1 = .ok { Err := some e, Rest := none }) ∧
        (∀ other : Invocation, other.MethodName = invocation.MethodName →
          other.GetAttribute CallTypeKey = some (Any.str CallBidiStream) →
          TripleInvoker.Invoke w ctx other = TripleInvoker.Invoke w ctx invocation)) := by
  refine ⟨fun hkind => ?_, fun hkind => ?_⟩
  · rw [Invoke_client_stream w cm ctx invocation hav hcm hkind]
    refine ⟨rfl, fun stream h => by simp [h], fun stream e h => by simp [h], ?_⟩
    intro other hname hother
    rw [Invoke_client_stream w cm ctx other hav hcm hother, hname]
  · rw [Invoke_bidi_stream w cm ctx invocation hav hcm hkind]
    refine ⟨rfl, fun stream h => by simp [h], fun stream e h => by simp [h], ?_⟩
    intro other hname hother
    rw [Invoke_bidi_stream w cm ctx other hav hcm hother, hname]

theorem invoke_stream_ignores_params_witness :
    (World.fresh failInvoker).ti.BaseInvoker.IsAvailable = true ∧
    (World.fresh failInvoker).ti.clientManager = some failClient ∧
    ((TripleInvoker.Invoke (World.fresh failInvoker) (Context.mk 0)
        (mkInvocation (some (Any.str CallClientStream)) [Any.int 1, Any.nil])).2.log
        = [TransportCall.callClientStream (Context.mk 0) "Echo"] ∧
      (TripleInvoker.Invoke (World.fresh failInvoker) (Context.mk 0)
        (mkInvocation (some (Any.str CallClientStream)) [Any.int 1, Any.nil])).1
        = .ok { Err := none, Rest := some (StreamHandle.mk 21) } ∧
      TripleInvoker.Invoke (World.fresh failInvoker) (Context.mk 0)
          (mkInvocation (some (Any.str CallClientStream)) [])
        = TripleInvoker.Invoke (World.fresh failInvoker) (Context.mk 0)
          (mkInvocation (some (Any.str CallClientStream)) [Any.int 1, Any.nil])) ∧
    ((TripleInvoker.Invoke (World.fresh failInvoker) (Context.mk 0)
        (mkInvocation (some (Any.str CallBidiStream)) [Any.ref 9])).2.log
        = [TransportCall.callBidiStream (Context.mk 0) "Echo"] ∧
      (TripleInvoker.Invoke (World.fresh failInvoker) (Context.mk 0)
        (mkInvocation (some (Any.str CallBidiStream)) [Any.ref 9])).1
        = .ok { Err := some (Error.other "reset"), Rest := none } ∧
      TripleInvoker.Invoke (World.fresh failInvoker) (Context.mk 0)
          (mkInvocation (some (Any.str CallBidiStream)) [])
        = TripleInvoker.Invoke (World.fresh failInvoker) (Context.mk 0)
          (mkInvocation (some (Any.str CallBidiStream)) [Any.ref 9])) :=
  have hc := (invoke_stream_ignores_params (World.fresh failInvoker) failClient (Context.mk 0)
    (mkInvocation (some (Any.str CallClientStream)) [Any.int 1, Any.nil]) rfl rfl).1 rfl
  have hb := (invoke_stream_ignores_params (World.fresh failInvoker) failClient (Context.mk 0)
    (mkInvocation (some (Any.str CallBidiStream)) [Any.ref 9]) rfl rfl).2 rfl
  ⟨rfl, rfl,
    ⟨by rw [hc.1]; rfl, hc.2.1 (StreamHandle.mk 21) rfl,
      hc.2.2.2 (mkInvocation (some (Any.str CallClientStream)) []) rfl rfl⟩,
    ⟨by rw [hb.1]; rfl, hb.2.2.1 (StreamHandle.mk 0) (Error.other "reset") rfl,
      hb.2.2.2 (mkInvocation (some (Any.str CallBidiStream)) []) rfl rfl⟩⟩

/-- C6: on an available invoker with a non-null handle, an invocation with no `CallTypeKey`
attribute, or whose attribute is not a string, or is a string other than the four call
kinds, makes `Invoke` panic instead of returning a result, whatever its parameter values,
and no transport primitive is called (the world is left as it was). -/
theorem invoke_bad_kind_panics (w : World) (cm : clientManager) (ctx : Context)
    (invocation : Invocation)
    (hav : w.ti.BaseInvoker.IsAvailable = true) (hcm : w.ti.clientManager = some cm)
    (hbad : invocation.GetAttribute CallTypeKey = none ∨
            (∃ v, invocation.GetAttribute CallTypeKey = some v ∧ ∀ s, v ≠ Any.str s) ∨
            (∃ s, invocation.GetAttribute CallTypeKey = some (Any.str s) ∧
              s ≠ CallUnary ∧ s ≠ CallClientStream ∧ s ≠ CallServerStream ∧
              s ≠ CallBidiStream)) :
    (∃ p, (TripleInvoker.Invoke w ctx invocation).1 = .error p) ∧
      (TripleInvoker.Invoke w ctx invocation).2 = w := by
  unfold TripleInvoker.Invoke
  rcases hbad with hnone | ⟨v, hv, hns⟩ | ⟨s, hs, h1, h2, h3, h4⟩
  · simp [hav, hcm, hnone]
  · have hv2 : v.asString = none := by
      cases v with
      | str s => exact absurd rfl (hns s)
      | nil => rfl
      | int n => rfl
      | ref a => rfl
    simp [hav, hcm, hv, hv2]
  · simp [hav, hcm, hs, Any.asString, h1, h2, h3, h4]

theorem invoke_bad_kind_panics_witness :
    ((∃ p, (TripleInvoker.Invoke (World.fresh okInvoker) (Context.mk 0)
        (mkInvocation none [Any.int 1, Any.int 2])).1 = .error p) ∧
      (TripleInvoker.Invoke (World.fresh okInvoker) (Context.mk 0)
        (mkInvocation none [Any.int 1, Any.int 2])).2.log = []) ∧
    ((∃ p, (TripleInvoker.Invoke (World.fresh okInvoker) (Context.mk 0)
        (mkInvocation (some (Any.int 7)) [])).1 = .error p) ∧
      (TripleInvoker.Invoke (World.fresh okInvoker) (Context.mk 0)
        (mkInvocation (some (Any.int 7)) [])).2.log = []) ∧
    ((∃ p, (TripleInvoker.Invoke (World.fresh okInvoker) (Context.mk 0)
        (mkInvocation (some (Any.str "Unary")) [Any.int 1, Any.int 2])).1 = .error p) ∧
      (TripleInvoker.Invoke (World.fresh okInvoker) (Context.mk 0)
        (mkInvocation (some (Any.str "Unary")) [Any.int 1, Any.int 2])).2.log = []) :=
  have h0 := invoke_bad_kind_panics (World.fresh okInvoker) okClient (Context.mk 0)
    (mkInvocation none [Any.int 1, Any.int 2]) rfl rfl (Or.inl rfl)
  have h1 := invoke_bad_kind_panics (World.fresh okInvoker) okClient (Context.mk 0)
    (mkInvocation (some (Any.int 7)) []) rfl rfl
    (Or.inr (Or.inl ⟨Any.int 7, rfl, fun s h => by cases h⟩))
  have h2 := invoke_bad_kind_panics (World.fresh okInvoker) okClient (Context.mk 0)
    (mkInvocation (some (Any.str "Unary")) [Any.int 1, Any.int 2]) rfl rfl
    (Or.inr (Or.inr ⟨"Unary", rfl, by decide, by decide, by decide, by decide⟩))
  ⟨⟨h0.1, by rw [h0.2]; rfl⟩, ⟨h1.1, by rw [h1.2]; rfl⟩, ⟨h2.1, by rw [h2.2]; rfl⟩⟩

/-! ## Teardown and status queries -/

theorem Destroy_done (w : World) (hq : w.ti.quitOnce = true) : TripleInvoker.Destroy w = w := by
  simp [TripleInvoker.Destroy, hq]

theorem Destroy_nulls_handle (w : World)
    (hinv : w.ti.quitOnce = true → w.ti.clientManager = none) :
    (TripleInvoker.Destroy w).ti.clientManager = none := by
  unfold TripleInvoker.Destroy
  by_cases hq : w.ti.quitOnce = true
  · simp [hq, hinv hq]
  · simp only [hq]
    cases hcm : w.ti.clientManager <;>
      simp [TripleInvoker.getClientManager, TripleInvoker.setClientManager, hcm]

theorem run_keeps_handle_inv (ops : List Op) (w : World)
    (hinv : w.ti.quitOnce = true → w.ti.clientManager = none) :
    (run w ops).ti.quitOnce = true → (run w ops).ti.clientManager = none := by
  induction ops generalizing w with
  | nil => exact hinv
  | cons op rest ih =>
    apply ih (step w op)
    cases op with
    | invoke ctx invocation =>
      simp only [step, (Invoke_keeps_invoker w ctx invocation).1]
      exact hinv
    | isAvailable => exact hinv
    | isDestroyed => exact hinv
    | destroy => intro _; exact Destroy_nulls_handle w hinv

theorem run_before_destroy (ops : List Op) (w : World) (hnd : Op.destroy ∉ ops) :
    (run w ops).ti = w.ti ∧ (run w ops).closeCount = w.closeCount := by
  induction ops generalizing w with
  | nil => exact ⟨rfl, rfl⟩
  | cons op rest ih =>
    have hrest : Op.destroy ∉ rest := fun h => hnd (List.mem_cons_of_mem _ h)
    have h := ih (step w op) hrest
    rw [run_cons, h.1, h.2]
    cases op with
    | invoke ctx invocation => exact Invoke_keeps_invoker w ctx invocation
    | isAvailable => exact ⟨rfl, rfl⟩
    | isDestroyed => exact ⟨rfl, rfl⟩
    | destroy => exact absurd (List.mem_cons_self _ _) hnd

theorem run_after_destroy (ops : List Op) (w : World) (hq : w.ti.quitOnce = true) :
    (run w ops).ti.quitOnce = true ∧ (run w ops).closeCount = w.closeCount := by
  induction ops generalizing w with
  | nil => exact ⟨hq, rfl⟩
  | cons op rest ih =>
    have hstep : (step w op).ti.quitOnce = true ∧ (step w op).closeCount = w.closeCount := by
      cases op with
      | invoke ctx invocation =>
        have h := Invoke_keeps_invoker w ctx invocation
        simp only [step, h.1, h.2]
        exact ⟨hq, trivial⟩
      | isAvailable => exact ⟨hq, rfl⟩
      | isDestroyed => exact ⟨hq, rfl⟩
      | destroy => simp only [step, Destroy_done w hq]; exact ⟨hq, trivial⟩
    have h := ih (step w op) hstep.1
    rw [run_cons, h.2, hstep.2]
    exact ⟨h.1, rfl⟩

theorem first_Destroy (w : World) (cm : clientManager) (hq : w.ti.quitOnce = false)
    (hcm : w.ti.clientManager = some cm) :
    (TripleInvoker.Destroy w).ti.quitOnce = true ∧
      (TripleInvoker.Destroy w).closeCount = w.closeCount + 1 := by
  simp [TripleInvoker.Destroy, hq, hcm, TripleInvoker.getClientManager,
    TripleInvoker.setClientManager]

/-- C7: for a sequence of calls on a successfully constructed invoker that contains at
least one `Destroy`, the client's close routine has run exactly once at the end; a further
`Destroy` leaves the whole world unchanged; and the close is done by the first `Destroy`:
before it the close count is 0, right after it the close count is 1. -/
theorem destroy_closes_once (r : Except Error clientManager) (ti : TripleInvoker)
    (hnew : NewTripleInvoker r = .ok ti) (ops : List Op) (hd : Op.destroy ∈ ops) :
    (run (World.fresh ti) ops).closeCount = 1 ∧
      TripleInvoker.Destroy (run (World.fresh ti) ops) = run (World.fresh ti) ops ∧
      ∀ pre, Op.destroy ∉ pre →
        (run (World.fresh ti) pre).closeCount = 0 ∧
        (run (World.fresh ti) (pre ++ [Op.destroy])).closeCount = 1 := by
  obtain ⟨cm, rfl⟩ := fresh_of_new r ti hnew
  have hfirst : ∀ pre, Op.destroy ∉ pre →
      (run (World.fresh
          { BaseInvoker := NewBaseInvoker, quitOnce := false, clientManager := some cm })
        pre).closeCount = 0 ∧
      (run (World.fresh
          { BaseInvoker := NewBaseInvoker, quitOnce := false, clientManager := some cm })
        (pre ++ [Op.destroy])).ti.quitOnce = true ∧
      (run (World.fresh
          { BaseInvoker := NewBaseInvoker, quitOnce := false, clientManager := some cm })
        (pre ++ [Op.destroy])).closeCount = 1 := by
    intro pre hpre
    have hb := run_before_destroy pre (World.fresh
      { BaseInvoker := NewBaseInvoker, quitOnce := false, clientManager := some cm }) hpre
    have hf := first_Destroy (run (World.fresh
      { BaseInvoker := NewBaseInvoker, quitOnce := false, clientManager := some cm }) pre) cm
      (by rw [hb.1]; rfl) (by rw [hb.1]; rfl)
    refine ⟨by rw [hb.2]; rfl, ?_, ?_⟩
    · rw [run_append]; exact hf.1
    · rw [run_append]
      show (TripleInvoker.Destroy _).closeCount = 1
      rw [hf.2, hb.2]; rfl
  have hsplit : ∃ pre post, ops = pre ++ Op.destroy :: post ∧ Op.destroy ∉ pre := by
    clear hfirst
    induction ops with
    | nil => cases hd
    | cons op rest ih =>
      by_cases hop : op = Op.destroy
      · exact ⟨[], rest, by simp [hop], by simp⟩
      · have hrest : Op.destroy ∈ rest := by
          rcases List.mem_cons.1 hd with h | h
          · exact absurd h.symm hop
          · exact h
        obtain ⟨pre, post, hps, hpre⟩ := ih hrest
        refine ⟨op :: pre, post, by simp [hps], ?_⟩
        intro hmem
        rcases List.mem_cons.1 hmem with h | h
        · exact hop h.symm
        · exact hpre h
  obtain ⟨pre, post, rfl, hpre⟩ := hsplit
  have h1 := hfirst pre hpre
  have hrun : run (World.fresh
        { BaseInvoker := NewBaseInvoker, quitOnce := false, clientManager := some cm })
        (pre ++ Op.destroy :: post)
      = run (run (World.fresh
        { BaseInvoker := NewBaseInvoker, quitOnce := false, clientManager := some cm })
        (pre ++ [Op.destroy])) post := by
    rw [← run_append]; simp
  have h2 := run_after_destroy post _ h1.2.1
  rw [hrun]
  exact ⟨by rw [h2.2]; exact h1.2.2, Destroy_done _ h2.1,
    fun pre2 hpre2 => ⟨(hfirst pre2 hpre2).1, (hfirst pre2 hpre2).2.2⟩⟩

theorem destroy_closes_once_witness :
    NewTripleInvoker (.ok okClient) = .ok okInvoker ∧
    (run (World.fresh okInvoker)
      [Op.isAvailable, Op.destroy, Op.invoke (Context.mk 0) (mkInvocation none []),
        Op.destroy, Op.isDestroyed, Op.destroy]).closeCount = 1 ∧
    TripleInvoker.Destroy (run (World.fresh okInvoker)
      [Op.isAvailable, Op.destroy, Op.invoke (Context.mk 0) (mkInvocation none []),
        Op.destroy, Op.isDestroyed, Op.destroy])
      = run (World.fresh okInvoker)
      [Op.isAvailable, Op.destroy, Op.invoke (Context.mk 0) (mkInvocation none []),
        Op.destroy, Op.isDestroyed, Op.destroy] ∧
    (run (World.fresh okInvoker) [Op.isAvailable]).closeCount = 0 ∧
    (run (World.fresh okInvoker) ([Op.isAvailable] ++ [Op.destroy])).closeCount = 1 :=
  have h := destroy_closes_once (.ok okClient) okInvoker rfl
    [Op.isAvailable, Op.destroy, Op.invoke (Context.mk 0) (mkInvocation none []),
      Op.destroy, Op.isDestroyed, Op.destroy] (by simp)
  ⟨rfl, h.1, h.2.1, h.2.2 [Op.isAvailable] (by simp)⟩

/-- C8: `IsAvailable` is true exactly when the handle is non-null and the base state
reports available; it is true on a freshly constructed invoker and false in the state left
by `Destroy`, whatever calls came before that `Destroy`. -/
theorem isAvailable_spec (r : Except Error clientManager) (ti0 : TripleInvoker)
    (hnew : NewTripleInvoker r = .ok ti0) (ops : List Op) :
    (∀ ti : TripleInvoker,
      ti.IsAvailable = true ↔ (ti.clientManager ≠ none ∧ ti.BaseInvoker.IsAvailable = true)) ∧
    (World.fresh ti0).ti.IsAvailable = true ∧
    (TripleInvoker.Destroy (run (World.fresh ti0) ops)).ti.IsAvailable = false := by
  have hiff : ∀ ti : TripleInvoker,
      ti.IsAvailable = true ↔ (ti.clientManager ≠ none ∧ ti.BaseInvoker.IsAvailable = true) := by
    intro ti
    cases hcm : ti.clientManager <;>
      simp [TripleInvoker.IsAvailable, TripleInvoker.getClientManager, hcm]
  obtain ⟨cm, rfl⟩ := fresh_of_new r ti0 hnew
  refine ⟨hiff, rfl, ?_⟩
  have hinv := run_keeps_once_inv ops (World.fresh
    { BaseInvoker := NewBaseInvoker, quitOnce := false, clientManager := some cm })
    (by simp [World.fresh])
  have hd := (Destroy_unavailable _ hinv).1
  cases hres : (TripleInvoker.Destroy (run (World.fresh
    { BaseInvoker := NewBaseInvoker, quitOnce := false, clientManager := some cm })
    ops)).ti.IsAvailable with
  | false => rfl
  | true => rw [((hiff _).1 hres).2] at hd; cases hd

theorem isAvailable_spec_witness :
    NewTripleInvoker (.ok okClient) = .ok okInvoker ∧
    (okInvoker.IsAvailable = true ↔
      (okInvoker.clientManager ≠ none ∧ okInvoker.BaseInvoker.IsAvailable = true)) ∧
    (World.fresh okInvoker).ti.IsAvailable = true ∧
    (TripleInvoker.Destroy (run (World.fresh okInvoker)
      [Op.invoke (Context.mk 0) (mkInvocation (some (Any.str CallBidiStream)) [])])).ti.IsAvailable
      = false :=
  have h := isAvailable_spec (.ok okClient) okInvoker rfl
    [Op.invoke (Context.mk 0) (mkInvocation (some (Any.str CallBidiStream)) [])]
  ⟨rfl, h.1 okInvoker, h.2.1, h.2.2⟩

/-- C9: `IsDestroyed` is true exactly when the handle is non-null and the base state
reports destroyed; since `Destroy` nulls the handle, it is false in the state left by
`Destroy` on a successfully constructed invoker (whatever calls came before), and it is
false on a freshly constructed invoker. -/
theorem isDestroyed_spec (r : Except Error clientManager) (ti0 : TripleInvoker)
    (hnew : NewTripleInvoker r = .ok ti0) (ops : List Op) :
    (∀ ti : TripleInvoker,
      ti.IsDestroyed = true ↔ (ti.clientManager ≠ none ∧ ti.BaseInvoker.IsDestroyed = true)) ∧
    (World.fresh ti0).ti.IsDestroyed = false ∧
    (TripleInvoker.Destroy (run (World.fresh ti0) ops)).ti.clientManager = none ∧
    (TripleInvoker.Destroy (run (World.fresh ti0) ops)).ti.IsDestroyed = false := by
  have hiff : ∀ ti : TripleInvoker,
      ti.IsDestroyed = true ↔ (ti.clientManager ≠ none ∧ ti.BaseInvoker.IsDestroyed = true) := by
    intro ti
    cases hcm : ti.clientManager <;>
      simp [TripleInvoker.IsDestroyed, TripleInvoker.getClientManager, hcm]
  obtain ⟨cm, rfl⟩ := fresh_of_new r ti0 hnew
  have hinv := run_keeps_handle_inv ops (World.fresh
    { BaseInvoker := NewBaseInvoker, quitOnce := false, clientManager := some cm })
    (by simp [World.fresh])
  have hnull := Destroy_nulls_handle _ hinv
  refine ⟨hiff, rfl, hnull, ?_⟩
  simp [TripleInvoker.IsDestroyed, TripleInvoker.getClientManager, hnull]

theorem isDestroyed_spec_witness :
    NewTripleInvoker (.ok okClient) = .ok okInvoker ∧
    (okInvoker.IsDestroyed = true ↔
      (okInvoker.clientManager ≠ none ∧ okInvoker.BaseInvoker.IsDestroyed = true)) ∧
    (World.fresh okInvoker).ti.IsDestroyed = false ∧
    (TripleInvoker.Destroy (run (World.fresh okInvoker) [Op.isDestroyed])).ti.BaseInvoker.IsDestroyed
      = true ∧
    (TripleInvoker.Destroy (run (World.fresh okInvoker) [Op.isDestroyed])).ti.IsDestroyed = false :=
  have h := isDestroyed_spec (.ok okClient) okInvoker rfl [Op.isDestroyed]
  ⟨rfl, h.1 okInvoker, h.2.1, rfl, h.2.2.2⟩

end Triple
